import Mathlib

/-!
# btcctl configuration loading (`util/btcctl/config.go`)

A shallow embedding of `loadConfig` and of the parts of its environment it
touches: the process arguments, the file system, the application data
directories and the go-flags parser it drives.

* `loadConfig` is translated statement by statement from the Go source.  It takes
  the go-flags library as a parameter (`Flags`), so the control-flow results hold
  for every behaviour of the library.
* `goflags` is a concrete, executable instance of that library for the option
  table declared by the struct tags of `config`.
-/

namespace Btcctl

/-! ## Errors -/

/-- The system error carried by an `*os.PathError`. -/
inductive Errno where
  | ENOENT
  | EACCES
  | EISDIR
  deriving DecidableEq, Repr

/-- The `ErrorType` of a go-flags `*flags.Error`. -/
inductive ErrorType where
  | ErrUnknownGroup
  | ErrExpectedArgument
  | ErrUnknownFlag
  | ErrHelp
  | ErrNoArgumentForBool
  | ErrMarshal
  deriving DecidableEq, Repr

/-- The dynamic types of the Go `error` values that reach `loadConfig`. -/
inductive GoError where
  /-- An `*os.PathError`: operation, path and system error. -/
  | PathError (op : String) (path : String) (err : Errno)
  /-- A `*flags.IniError`: message, file and line number. -/
  | IniError (message : String) (file : String) (lineNumber : Nat)
  /-- A `*flags.Error`: error type and the flag, group or value it is about. -/
  | FlagsError (type : ErrorType) (message : String)
  deriving DecidableEq, Repr

/-- The type assertion `err.(*os.PathError)`: its `ok` result. -/
def GoError.isPathError : GoError → Bool
  | .PathError _ _ _ => true
  | _ => false

/-! ## The configuration record -/

/-- The `config` struct: configuration options for btcctl. -/
structure config where
  ConfigFile : String
  RpcUser : String
  RpcPassword : String
  RpcServer : String
  RpcCert : String
  TlsSkipVerify : Bool
  deriving DecidableEq, Repr

/-- The six fields of `config`. -/
inductive Field where
  | ConfigFile
  | RpcUser
  | RpcPassword
  | RpcServer
  | RpcCert
  | TlsSkipVerify
  deriving DecidableEq, Repr

/-- A value stored in a field of `config`: a Go `string` or a Go `bool`. -/
inductive Value where
  | str (s : String)
  | bool (b : Bool)
  deriving DecidableEq, Repr

/-- Reading a field of the record. -/
def config.get (c : config) : Field → Value
  | .ConfigFile => .str c.ConfigFile
  | .RpcUser => .str c.RpcUser
  | .RpcPassword => .str c.RpcPassword
  | .RpcServer => .str c.RpcServer
  | .RpcCert => .str c.RpcCert
  | .TlsSkipVerify => .bool c.TlsSkipVerify

/-- One assignment made by the flags library to a field of the struct it was
created over (go-flags stores through reflection, one option at a time). -/
inductive Setting where
  | ConfigFile (v : String)
  | RpcUser (v : String)
  | RpcPassword (v : String)
  | RpcServer (v : String)
  | RpcCert (v : String)
  | TlsSkipVerify (b : Bool)
  deriving DecidableEq, Repr

/-- The field an assignment writes. -/
def Setting.field : Setting → Field
  | .ConfigFile _ => .ConfigFile
  | .RpcUser _ => .RpcUser
  | .RpcPassword _ => .RpcPassword
  | .RpcServer _ => .RpcServer
  | .RpcCert _ => .RpcCert
  | .TlsSkipVerify _ => .TlsSkipVerify

/-- The value an assignment writes. -/
def Setting.value : Setting → Value
  | .ConfigFile v => .str v
  | .RpcUser v => .str v
  | .RpcPassword v => .str v
  | .RpcServer v => .str v
  | .RpcCert v => .str v
  | .TlsSkipVerify b => .bool b

/-- Performing one assignment on the record; every other field is untouched. -/
def Setting.apply (s : Setting) (c : config) : config :=
  match s with
  | .ConfigFile v => { c with ConfigFile := v }
  | .RpcUser v => { c with RpcUser := v }
  | .RpcPassword v => { c with RpcPassword := v }
  | .RpcServer v => { c with RpcServer := v }
  | .RpcCert v => { c with RpcCert := v }
  | .TlsSkipVerify b => { c with TlsSkipVerify := b }

/-- Performing a sequence of assignments, first to last. -/
def applyAll (c : config) : List Setting → config
  | [] => c
  | s :: rest => applyAll (s.apply c) rest

/-- The value of the last assignment to field `F` in a sequence, if any. -/
def lastSet (F : Field) : List Setting → Option Value
  | [] => none
  | s :: rest =>
    match lastSet F rest with
    | some v => some v
    | none => if s.field = F then some s.value else none

/-! ## The environment -/

/-- What the file system holds at a path. -/
inductive FileState where
  /-- Nothing is there: `os.Open` fails with `ENOENT`. -/
  | absent
  /-- The file may not be opened: `os.Open` fails with `EACCES`. -/
  | denied
  /-- A directory: it opens, and reading it fails with `EISDIR`. -/
  | directory
  /-- A readable regular file and its contents. -/
  | regular (contents : String)
  deriving DecidableEq, Repr

/-- The file system, as far as `loadConfig` can observe it. -/
abbrev FileSystem := String → FileState

/-- The two functions behind the package-level path variables:
`btcutil.AppDataDir` and `filepath.Join`. -/
structure Env where
  AppDataDir : String → Bool → String
  Join : String → String → String

/-- Package variable `btcdHomeDir`. -/
def btcdHomeDir (env : Env) : String := env.AppDataDir "btcd" false

/-- Package variable `btcctlHomeDir`. -/
def btcctlHomeDir (env : Env) : String := env.AppDataDir "btcctl" false

/-- Package variable `defaultConfigFile`. -/
def defaultConfigFile (env : Env) : String := env.Join (btcctlHomeDir env) "btcctl.conf"

/-- Package variable `defaultRPCCertFile`. -/
def defaultRPCCertFile (env : Env) : String := env.Join (btcdHomeDir env) "rpc.cert"

/-! ## The go-flags interface used by `loadConfig` -/

/-- The parser options `loadConfig` passes to `flags.NewParser`. -/
structure ParserOptions where
  HelpFlag : Bool
  PassDoubleDash : Bool
  deriving DecidableEq, Repr

/-- The option set `flags.None`. -/
def ParserOptions.None : ParserOptions := ⟨false, false⟩

/-- The option set `flags.PassDoubleDash|flags.HelpFlag`. -/
def ParserOptions.PassDoubleDashHelpFlag : ParserOptions := ⟨true, true⟩

/-- What a run of the command-line parser did: the assignments it made to the
struct, in order, the arguments it returns, and its error.  The returned
arguments are those of a successful parse; `loadConfig` drops them on error. -/
structure ParseOutcome where
  sets : List Setting
  retargs : List String
  err : Option GoError
  deriving DecidableEq, Repr

/-- What loading an ini file did: the assignments made before it stopped, and
its error. -/
structure IniOutcome where
  sets : List Setting
  err : Option GoError
  deriving DecidableEq, Repr

/-- The go-flags library as `loadConfig` uses it: a parser created with some
options over a `config` struct parses the process arguments, or loads an ini
file, by assigning to fields of that struct, one option at a time; it does not
read the struct.  Which assignments it makes, which arguments it returns and
which error it answers is left to the library. -/
structure Flags where
  parseArgs : ParserOptions → List String → ParseOutcome
  readIniFile : ParserOptions → FileSystem → String → IniOutcome

/-- The call `parser.Parse()` on a parser created over `cfg` with `opts`: the struct
afterwards, the remaining arguments and the error. -/
def Flags.Parse (lib : Flags) (opts : ParserOptions) (cfg : config) (args : List String) :
    config × List String × Option GoError :=
  let o := lib.parseArgs opts args
  (applyAll cfg o.sets, o.retargs, o.err)

/-- The call `parser.ParseIniFile(filename)` on a parser created over `cfg`. -/
def Flags.ParseIniFile (lib : Flags) (opts : ParserOptions) (fs : FileSystem) (cfg : config)
    (filename : String) : config × Option GoError :=
  let o := lib.readIniFile opts fs filename
  (applyAll cfg o.sets, o.err)

/-! ## `loadConfig` -/

/-- The values `loadConfig` returns after the parser handle: the `*config` (`none`
is `nil`), the remaining arguments (`none` is the `nil` slice) and the error
(`none` is `nil`); `stderr` is what the call wrote to the standard error stream. -/
structure LoadResult where
  cfg : Option config
  remainingArgs : Option (List String)
  err : Option GoError
  stderr : List GoError
  deriving DecidableEq, Repr

/-- The default config of `loadConfig`; unnamed fields hold Go zero values. -/
def defaultConfig (env : Env) : config :=
  { ConfigFile := defaultConfigFile env
    RpcUser := ""
    RpcPassword := ""
    RpcServer := "localhost:8334"
    RpcCert := defaultRPCCertFile env
    TlsSkipVerify := false }

/-- The function `loadConfig`: defaults, pre-parse for the config file path,
load of the ini file, final parse of the command line. -/
def loadConfig (lib : Flags) (env : Env) (fs : FileSystem) (args : List String) : LoadResult :=
  -- Default config.
  let cfg := defaultConfig env
  -- Pre-parse the command line options to see if an alternative config file was
  -- specified.  Any error is ignored here.
  let preCfg := cfg
  let preCfg := (lib.Parse ParserOptions.None preCfg args).1
  -- Load additional config from file.
  let opts := ParserOptions.PassDoubleDashHelpFlag
  let (cfg, err) := lib.ParseIniFile opts fs cfg preCfg.ConfigFile
  -- Return the error unless it is nil or an `*os.PathError`.
  match err.filter (fun e => !e.isPathError) with
  | some e => ⟨none, none, some e, [e]⟩
  | none =>
    -- Parse command line options again to ensure they take precedence.
    let (cfg, remainingArgs, err) := lib.Parse opts cfg args
    match err with
    | some e => ⟨none, none, some e, []⟩
    | none => ⟨some cfg, some remainingArgs, none, []⟩

/-! ## A concrete go-flags

The library itself is not part of the repository.  What follows is an executable
description of the two calls `loadConfig` makes, for the option table given by
the struct tags of `config`. -/

/-- How an option stores what it is given. -/
inductive OptKind where
  /-- A `string` field: the option takes an argument and stores it. -/
  | str (store : String → Setting)
  /-- A `bool` field: the option takes no argument. -/
  | bool (store : Bool → Setting)
  /-- The built-in help option added by `flags.HelpFlag`. -/
  | help

/-- The `long:"..."` tags of `config`. -/
def longNames : List (String × OptKind) :=
  [("configfile", .str Setting.ConfigFile),
   ("rpcuser", .str Setting.RpcUser),
   ("rpcpass", .str Setting.RpcPassword),
   ("rpcserver", .str Setting.RpcServer),
   ("rpccert", .str Setting.RpcCert),
   ("skipverify", .bool Setting.TlsSkipVerify)]

/-- The `short:"..."` tags of `config`. -/
def shortNames : List (Char × OptKind) :=
  [('C', .str Setting.ConfigFile),
   ('u', .str Setting.RpcUser),
   ('P', .str Setting.RpcPassword),
   ('s', .str Setting.RpcServer),
   ('c', .str Setting.RpcCert)]

/-- Modelled from the spec: the go-flags lookup of a long option name, which is
not under src/.  The options are those of the CLI surface; `--help` exists only
on a parser created with `flags.HelpFlag`. -/
def lookupLong (opts : ParserOptions) (name : String) : Option OptKind :=
  match longNames.lookup name with
  | some k => some k
  | none => if opts.HelpFlag && name == "help" then some .help else none

/-- Modelled from the spec: the go-flags lookup of a short option name, which is
not under src/.  `-h` exists only on a parser created with `flags.HelpFlag`. -/
def lookupShort (opts : ParserOptions) (c : Char) : Option OptKind :=
  match shortNames.lookup c with
  | some k => some k
  | none => if opts.HelpFlag && c == 'h' then some .help else none

/-- What handling one option argument of the command line leads to. -/
inductive ArgStep where
  /-- The option was handled; these assignments were made. -/
  | done (sets : List Setting)
  /-- The option takes its argument from the next command-line argument. -/
  | needValue (sets : List Setting) (store : String → Setting)
  /-- The parse stops with an error; these assignments were already made. -/
  | fail (sets : List Setting) (e : GoError)

/-- Put assignments made earlier in front of those of a step. -/
def ArgStep.after (pre : List Setting) : ArgStep → ArgStep
  | .done sets => .done (pre ++ sets)
  | .needValue sets store => .needValue (pre ++ sets) store
  | .fail sets e => .fail (pre ++ sets) e

/-- Modelled from the spec: go-flags (not under src/) takes an argument for an
option when it starts with one or two dashes followed by something else; a
lone `-` or `--` is not an option. -/
def argumentIsOption (arg : String) : Bool :=
  match arg.data with
  | '-' :: '-' :: c :: _ => c != '-'
  | '-' :: c :: _ => c != '-'
  | _ => false

/-- Split a list of characters at its first `=`. -/
def splitAtEq : List Char → List Char × Option (List Char)
  | [] => ([], none)
  | c :: cs =>
    if c = '=' then ([], some cs)
    else
      let r := splitAtEq cs
      (c :: r.1, r.2)

/-- Modelled from the spec: go-flags (not under src/) handling `--name` or
`--name=argument`. -/
def parseLong (opts : ParserOptions) (name : String) (argument : Option String) : ArgStep :=
  match lookupLong opts name with
  | none => .fail [] (.FlagsError .ErrUnknownFlag name)
  | some (.str store) =>
    match argument with
    | some v => .done [store v]
    | none => .needValue [] store
  | some (.bool store) =>
    match argument with
    | some _ => .fail [] (.FlagsError .ErrNoArgumentForBool name)
    | none => .done [store true]
  | some .help =>
    match argument with
    | some _ => .fail [] (.FlagsError .ErrNoArgumentForBool name)
    | none => .fail [] (.FlagsError .ErrHelp name)

/-- Modelled from the spec: go-flags (not under src/) handling the characters of
a short option argument one by one; only the last one may take its argument
from the next command-line argument. -/
def parseShortLoop (opts : ParserOptions) (optname : List Char) (argument : Option String) :
    ArgStep :=
  match optname with
  | [] => .done []
  | c :: cs =>
    match lookupShort opts c with
    | none => .fail [] (.FlagsError .ErrUnknownFlag (String.mk [c]))
    | some (.str store) =>
      match argument with
      | some v => (parseShortLoop opts cs none).after [store v]
      | none =>
        if cs.isEmpty then .needValue [] store
        else .fail [] (.FlagsError .ErrExpectedArgument (String.mk [c]))
    | some (.bool store) =>
      match argument with
      | some _ => .fail [] (.FlagsError .ErrNoArgumentForBool (String.mk [c]))
      | none => (parseShortLoop opts cs none).after [store true]
    | some .help =>
      match argument with
      | some _ => .fail [] (.FlagsError .ErrNoArgumentForBool (String.mk [c]))
      | none => .fail [] (.FlagsError .ErrHelp (String.mk [c]))

/-- Modelled from the spec: go-flags (not under src/) reading `-Cvalue`: when the
first character names an option that takes an argument, the rest of the
characters are that argument. -/
def splitShortConcatArg (opts : ParserOptions) (optname : List Char) :
    List Char × Option String :=
  match optname with
  | c :: d :: ds =>
    match lookupShort opts c with
    | some (.str _) => ([c], some (String.mk (d :: ds)))
    | _ => (optname, none)
  | _ => (optname, none)

/-- Modelled from the spec: go-flags (not under src/) handling a short option
argument. -/
def parseShort (opts : ParserOptions) (optname : List Char) (argument : Option String) :
    ArgStep :=
  match argument with
  | some a => parseShortLoop opts optname (some a)
  | none =>
    let r := splitShortConcatArg opts optname
    parseShortLoop opts r.1 r.2

/-- Modelled from the spec: go-flags (not under src/) handling one command-line
argument that is an option: `--name`, `--name=argument`, `-n`, `-n=argument` or
`-nargument`. -/
def parseOptionArg (opts : ParserOptions) (arg : String) : ArgStep :=
  match arg.data with
  | '-' :: '-' :: body =>
    let r := splitAtEq body
    parseLong opts (String.mk r.1) (r.2.map String.mk)
  | '-' :: c :: '=' :: rest => parseShort opts [c] (some (String.mk rest))
  | '-' :: body => parseShort opts body none
  | _ => .done []

/-- Modelled from the spec: the go-flags command-line parse, which is not under
src/.  Arguments are handled left to right; an option assigns to its field as
soon as it is read; the first error stops the parse; an argument that is not an
option is collected; with `flags.PassDoubleDash` a `--` ends the options and
everything after it is collected. -/
def parseArgs (opts : ParserOptions) : List String → ParseOutcome
  | [] => ⟨[], [], none⟩
  | arg :: rest =>
    if opts.PassDoubleDash && arg == "--" then ⟨[], rest, none⟩
    else if !argumentIsOption arg then
      let o := parseArgs opts rest
      ⟨o.sets, arg :: o.retargs, o.err⟩
    else
      match parseOptionArg opts arg with
      | .done sets =>
        let o := parseArgs opts rest
        ⟨sets ++ o.sets, o.retargs, o.err⟩
      | .fail sets e => ⟨sets, [], some e⟩
      | .needValue sets store =>
        match rest with
        | [] => ⟨sets, [], some (.FlagsError .ErrExpectedArgument arg)⟩
        | v :: rest' =>
          let o := parseArgs opts rest'
          ⟨sets ++ store v :: o.sets, o.retargs, o.err⟩

/-- One `name = value` line of an ini file and the section it stands in. -/
structure IniValue where
  Section : String
  Name : String
  Value : String
  deriving DecidableEq, Repr

/-- The Go function `unicode.IsSpace`: the characters `strings.TrimSpace` removes. -/
def isSpace (c : Char) : Bool :=
  c.toNat ∈ [0x09, 0x0A, 0x0B, 0x0C, 0x0D, 0x20, 0x85, 0xA0, 0x1680, 0x2028, 0x2029, 0x202F,
    0x205F, 0x3000] || (0x2000 ≤ c.toNat && c.toNat ≤ 0x200A)

/-- The Go function `strings.TrimSpace`, on a list of characters. -/
def trimSpace (cs : List Char) : List Char :=
  ((cs.dropWhile isSpace).reverse.dropWhile isSpace).reverse

/-- The lines of a file: its contents split at every newline. -/
def splitLines : List Char → List (List Char)
  | [] => [[]]
  | c :: cs =>
    if c = '\n' then [] :: splitLines cs
    else
      match splitLines cs with
      | [] => [[c]]
      | l :: ls => (c :: l) :: ls

/-- Modelled from the spec: the go-flags ini reader, which is not under src/.
Lines are trimmed; empty lines and lines starting with `;` or `#` are skipped;
`[name]` opens a section; every other line must be `name = value`.  A line that
is none of these is invalid and stops the read with an `IniError` naming the
file and the line. -/
def readIni (filename : String) : Nat → String → List (List Char) →
    Except GoError (List IniValue)
  | _, _, [] => .ok []
  | lineno, sect, raw :: rest =>
    let lineno := lineno + 1
    let line := trimSpace raw
    match line with
    | [] => readIni filename lineno sect rest
    | c :: body =>
      if c = ';' ∨ c = '#' then readIni filename lineno sect rest
      else if c = '[' then
        if line.getLast? ≠ some ']' then
          .error (.IniError "malformed section header" filename lineno)
        else
          let name := trimSpace body.dropLast
          if name = [] then .error (.IniError "empty section name" filename lineno)
          else readIni filename lineno (String.mk name) rest
      else
        match splitAtEq line with
        | (_, none) => .error (.IniError "malformed key=value" filename lineno)
        | (k, some v) =>
          match readIni filename lineno sect rest with
          | .error e => .error e
          | .ok vs => .ok (⟨sect, String.mk (trimSpace k), String.mk (trimSpace v)⟩ :: vs)

/-- The Go function `strconv.ParseBool`. -/
def parseBool (s : String) : Option Bool :=
  if s ∈ ["1", "t", "T", "TRUE", "true", "True"] then some true
  else if s ∈ ["0", "f", "F", "FALSE", "false", "False"] then some false
  else none

/-- Modelled from the spec: go-flags (not under src/) applying the values read
from an ini file, in order: the section must be the global one or the
`Application Options` group, the name must be the long name of an option, and the
value is stored in its field.  The first error stops the load. -/
def parseIni : List IniValue → IniOutcome
  | [] => ⟨[], none⟩
  | v :: rest =>
    if v.Section ≠ "" ∧ v.Section ≠ "Application Options" then
      ⟨[], some (.FlagsError .ErrUnknownGroup v.Section)⟩
    else
      match longNames.lookup v.Name with
      | none => ⟨[], some (.FlagsError .ErrUnknownFlag v.Name)⟩
      | some .help => ⟨[], some (.FlagsError .ErrUnknownFlag v.Name)⟩
      | some (.str store) =>
        let o := parseIni rest
        ⟨store v.Value :: o.sets, o.err⟩
      | some (.bool store) =>
        if v.Value = "" then
          let o := parseIni rest
          ⟨store true :: o.sets, o.err⟩
        else
          match parseBool v.Value with
          | none => ⟨[], some (.FlagsError .ErrMarshal v.Value)⟩
          | some b =>
            let o := parseIni rest
            ⟨store b :: o.sets, o.err⟩

/-- Modelled from the spec: the go-flags call `ParseIniFile`, which is not under
src/: `os.Open` the file, read it, apply it.  Every failure of `os.Open` and of
reading the open file is an `*os.PathError`; nothing is assigned when the file
cannot be read or is invalid. -/
def readIniFile (_opts : ParserOptions) (fs : FileSystem) (filename : String) : IniOutcome :=
  match fs filename with
  | .absent => ⟨[], some (.PathError "open" filename .ENOENT)⟩
  | .denied => ⟨[], some (.PathError "open" filename .EACCES)⟩
  | .directory => ⟨[], some (.PathError "read" filename .EISDIR)⟩
  | .regular contents =>
    match readIni filename 0 "" (splitLines contents.data) with
    | .error e => ⟨[], some e⟩
    | .ok vs => parseIni vs

/-- The go-flags library as described above. -/
def goflags : Flags := ⟨parseArgs, readIniFile⟩

/-! ## Vocabulary of the statements -/

/-- The path `loadConfig` hands to `ParseIniFile`: `preCfg.ConfigFile` after the pre-parse
of the command line over a copy of the default config, with `flags.None`. -/
def preParsedConfigFile (lib : Flags) (env : Env) (args : List String) : String :=
  ((lib.Parse ParserOptions.None (defaultConfig env) args).1).ConfigFile

/-- The final, authoritative parse of the command line: its assignments are the
fields supplied on the command line, with their values. -/
def cmdLine (lib : Flags) (args : List String) : ParseOutcome :=
  lib.parseArgs ParserOptions.PassDoubleDashHelpFlag args

/-- The load of the configuration file that `loadConfig` performs: its assignments
are the fields set in the file, with their values. -/
def fileLoad (lib : Flags) (env : Env) (fs : FileSystem) (args : List String) : IniOutcome :=
  lib.readIniFile ParserOptions.PassDoubleDashHelpFlag fs (preParsedConfigFile lib env args)

/-- A file-load error that `loadConfig` does not tolerate: present and not an
`*os.PathError`. -/
def fatalFileError (err : Option GoError) : Option GoError :=
  err.filter (fun e => !e.isPathError)

/-- The file-absent error: an `*os.PathError` carrying `ENOENT`. -/
def GoError.isFileAbsent : GoError → Bool
  | .PathError _ _ .ENOENT => true
  | _ => false

/-- A line of an ini file with invalid syntax: trimmed, it is not empty and not a
comment, and it either starts with `[` without being a section header `[name]`, or
it does not start with `[` and has no `=`. -/
def invalidLine (raw : List Char) : Bool :=
  match trimSpace raw with
  | [] => false
  | c :: body =>
    if c = ';' ∨ c = '#' then false
    else if c = '[' then
      decide ((c :: body).getLast? ≠ some ']') || decide (trimSpace body.dropLast = [])
    else (splitAtEq (c :: body)).2.isNone

/-- The option arguments that take their value from the next command-line
argument: the options with a string value, written without an attached value. -/
def valueOptions : List String :=
  ["-C", "--configfile", "-u", "--rpcuser", "-P", "--rpcpass", "-s", "--rpcserver",
   "-c", "--rpccert"]

/-- The command-line arguments that are not recognized options nor values taken
by options, in their order: an option argument is left out, with the argument
after it when it takes its value from there, and every other argument is kept. -/
def nonOptionArgs : List String → List String
  | [] => []
  | arg :: rest =>
    if arg ∈ valueOptions then
      match rest with
      | [] => []
      | _ :: rest' => nonOptionArgs rest'
    else if argumentIsOption arg then nonOptionArgs rest
    else arg :: nonOptionArgs rest

/-- The arguments a parse with `flags.PassDoubleDash` leaves over: as `nonOptionArgs` up
to the first `--` met where an option or a positional argument may stand; that `--`
ends the options, it is left out itself, and every argument after it is kept as
it is, recognized options and their values included. -/
def positionalArgs : List String → List String
  | [] => []
  | arg :: rest =>
    if arg = "--" then rest
    else if arg ∈ valueOptions then
      match rest with
      | [] => []
      | _ :: rest' => positionalArgs rest'
    else if argumentIsOption arg then positionalArgs rest
    else arg :: positionalArgs rest

/-- The walk behind `argsAfterTerminator`; `skip` says that the argument at hand is the
value of the option before it. -/
def argsAfterTerminatorFrom : Bool → List String → List String
  | _, [] => []
  | true, _ :: rest => argsAfterTerminatorFrom false rest
  | false, arg :: rest =>
    if arg == "--" then rest
    else if !argumentIsOption arg then argsAfterTerminatorFrom false rest
    else
      match parseOptionArg ParserOptions.PassDoubleDashHelpFlag arg with
      | .done _ => argsAfterTerminatorFrom false rest
      | .fail _ _ => []
      | .needValue _ _ => argsAfterTerminatorFrom true rest

/-- The arguments after the `--` at which the authoritative parse ends the options;
empty when that parse stops at an error first or meets no such `--`. -/
def argsAfterTerminator (args : List String) : List String :=
  argsAfterTerminatorFrom false args

/-- Two steps make the same assignments and continue the same way; when they
fail, their errors may differ. -/
def ArgStep.agree : ArgStep → ArgStep → Prop
  | .done s1, .done s2 => s1 = s2
  | .needValue s1 f1, .needValue s2 f2 => s1 = s2 ∧ f1 = f2
  | .fail s1 _, .fail s2 _ => s1 = s2
  | _, _ => False

/-! ## Concrete inputs -/

/-- An environment: a Unix home directory and a plain path join. -/
def env0 : Env := ⟨fun app _ => "/home/user/." ++ app, fun dir name => dir ++ "/" ++ name⟩

/-- A file system with nothing in it. -/
def fsEmpty : FileSystem := fun _ => .absent

/-- A file system whose default configuration file sets two options. -/
def fsDefaultFile : FileSystem := fun p =>
  if p = "/home/user/.btcctl/btcctl.conf" then
    .regular "rpcserver=file.example:1\nrpcuser=alice\n"
  else .absent

/-- A file system whose default configuration file has a line that is not
`name = value`. -/
def fsBadDefault : FileSystem := fun p =>
  if p = "/home/user/.btcctl/btcctl.conf" then .regular "rpcuser=alice\nnot an option line\n"
  else .absent

/-- A file system whose default configuration file may not be opened. -/
def fsDenied : FileSystem := fun p =>
  if p = "/home/user/.btcctl/btcctl.conf" then .denied else .absent

/-- A file system with a configuration file at a custom path only. -/
def fsCustom : FileSystem := fun p =>
  if p = "/custom/path.conf" then .regular "rpcserver=example.com:9000\n" else .absent

/-- A file system with an invalid default configuration file and a valid file at
a custom path. -/
def fsBadDefaultGoodCustom : FileSystem := fun p =>
  if p = "/home/user/.btcctl/btcctl.conf" then .regular "rpcuser=alice\nnot an option line\n"
  else if p = "/custom/path.conf" then .regular "rpcserver=example.com:9000\n"
  else .absent

/-- A file system with two configuration files at custom paths, setting different
servers, and no default configuration file. -/
def fsTwoCustom : FileSystem := fun p =>
  if p = "/custom/path.conf" then .regular "rpcserver=example.com:9000\n"
  else if p = "/other.conf" then .regular "rpcserver=other.example:1\n"
  else .absent

/-! ## Basic facts -/

theorem get_apply (s : Setting) (c : config) (F : Field) :
    (s.apply c).get F = if s.field = F then s.value else c.get F := by
  cases s <;> cases F <;> rfl

theorem get_applyAll (sets : List Setting) (c : config) (F : Field) :
    (applyAll c sets).get F = (lastSet F sets).getD (c.get F) := by
  induction sets generalizing c with
  | nil => rfl
  | cons s rest ih =>
    simp only [applyAll, lastSet, ih, get_apply]
    cases lastSet F rest <;> by_cases hf : s.field = F <;> simp [hf]

theorem lastSet_append (F : Field) (xs ys : List Setting) :
    lastSet F (xs ++ ys) =
      match lastSet F ys with
      | some v => some v
      | none => lastSet F xs := by
  induction xs with
  | nil => cases h : lastSet F ys <;> simp [lastSet, h]
  | cons s rest ih =>
    rw [List.cons_append]
    show (match lastSet F (rest ++ ys) with
      | some v => some v
      | none => if s.field = F then some s.value else none) = _
    rw [ih]
    cases lastSet F ys <;> rfl

theorem loadConfig_eq (lib : Flags) (env : Env) (fs : FileSystem) (args : List String) :
    loadConfig lib env fs args =
      match fatalFileError (fileLoad lib env fs args).err with
      | some e => ⟨none, none, some e, [e]⟩
      | none =>
        match (cmdLine lib args).err with
        | some e => ⟨none, none, some e, []⟩
        | none =>
          ⟨some (applyAll (applyAll (defaultConfig env) (fileLoad lib env fs args).sets)
              (cmdLine lib args).sets),
            some (cmdLine lib args).retargs, none, []⟩ := rfl

/-- A fatal file error ends `loadConfig`: nil config, nil arguments, the error
returned and printed. -/
theorem loadConfig_of_fatal (lib : Flags) (env : Env) (fs : FileSystem) (args : List String)
    (e : GoError) (h : fatalFileError (fileLoad lib env fs args).err = some e) :
    loadConfig lib env fs args = ⟨none, none, some e, [e]⟩ := by
  rw [loadConfig_eq, h]

/-- Without a fatal file error `loadConfig` is the final parse over the record the
file was loaded into. -/
theorem loadConfig_of_tolerated (lib : Flags) (env : Env) (fs : FileSystem)
    (args : List String) (h : fatalFileError (fileLoad lib env fs args).err = none) :
    loadConfig lib env fs args =
      match (cmdLine lib args).err with
      | some e => ⟨none, none, some e, []⟩
      | none =>
        ⟨some (applyAll (applyAll (defaultConfig env) (fileLoad lib env fs args).sets)
            (cmdLine lib args).sets),
          some (cmdLine lib args).retargs, none, []⟩ := by
  rw [loadConfig_eq, h]

theorem fatalFileError_eq_some (err : Option GoError) (e : GoError) :
    fatalFileError err = some e ↔ err = some e ∧ e.isPathError = false := by
  unfold fatalFileError
  cases err with
  | none => simp
  | some x =>
    cases hx : x.isPathError
    · simp only [Option.filter, hx, Bool.not_false, if_true, Option.some.injEq]
      constructor
      · rintro rfl; exact ⟨rfl, hx⟩
      · rintro ⟨h, _⟩; exact h
    · simp only [Option.filter, hx, Bool.not_true, Option.some.injEq]
      constructor
      · intro h; simp at h
      · rintro ⟨rfl, h⟩; simp [hx] at h

/-- A successful `loadConfig`: the file error was tolerated, the final parse had
no error, and the record is the defaults, then the file, then the command line. -/
theorem loadConfig_success (lib : Flags) (env : Env) (fs : FileSystem) (args : List String)
    (c : config) (h : (loadConfig lib env fs args).cfg = some c) :
    fatalFileError (fileLoad lib env fs args).err = none ∧ (cmdLine lib args).err = none ∧
      c = applyAll (applyAll (defaultConfig env) (fileLoad lib env fs args).sets)
            (cmdLine lib args).sets := by
  cases hf : fatalFileError (fileLoad lib env fs args).err with
  | some e => rw [loadConfig_of_fatal lib env fs args e hf] at h; simp at h
  | none =>
    rw [loadConfig_of_tolerated lib env fs args hf] at h
    cases hc : (cmdLine lib args).err with
    | some e => rw [hc] at h; simp at h
    | none =>
      rw [hc] at h
      simp only [Option.some.injEq] at h
      exact ⟨rfl, rfl, h.symm⟩

/-! ## Precedence: command line, then file, then defaults -/

/-- C1: whenever `loadConfig` succeeds with record `c`, a field `F` that is set both in
the configuration file and on the command line holds the command-line value in
`c`, whatever the other fields are set to. -/
theorem command_line_wins (lib : Flags) (env : Env) (fs : FileSystem) (args : List String)
    (c : config) (F : Field) (vfile vcmd : Value)
    (hok : (loadConfig lib env fs args).cfg = some c)
    (_hfile : lastSet F (fileLoad lib env fs args).sets = some vfile)
    (hcmd : lastSet F (cmdLine lib args).sets = some vcmd) :
    c.get F = vcmd := by
  obtain ⟨_, _, rfl⟩ := loadConfig_success lib env fs args c hok
  rw [get_applyAll, hcmd]
  rfl

/-- Witness of C1: the file sets `rpcserver`, `-s` sets it too, the `-s` value is
the resolved one. -/
theorem command_line_wins_witness :
    lastSet .RpcServer (fileLoad goflags env0 fsDefaultFile ["-s", "cli.example:2"]).sets
        = some (.str "file.example:1") ∧
      lastSet .RpcServer (cmdLine goflags ["-s", "cli.example:2"]).sets
        = some (.str "cli.example:2") ∧
      (loadConfig goflags env0 fsDefaultFile ["-s", "cli.example:2"]).cfg =
        some ⟨"/home/user/.btcctl/btcctl.conf", "alice", "", "cli.example:2",
          "/home/user/.btcd/rpc.cert", false⟩ ∧
      (⟨"/home/user/.btcctl/btcctl.conf", "alice", "", "cli.example:2",
        "/home/user/.btcd/rpc.cert", false⟩ : config).get .RpcServer = .str "cli.example:2" :=
  ⟨by decide, by decide, by decide,
    command_line_wins goflags env0 fsDefaultFile ["-s", "cli.example:2"]
      ⟨"/home/user/.btcctl/btcctl.conf", "alice", "", "cli.example:2",
        "/home/user/.btcd/rpc.cert", false⟩ .RpcServer (.str "file.example:1")
      (.str "cli.example:2") (by decide) (by decide) (by decide)⟩

/-- C2: whenever `loadConfig` succeeds with record `c`, a field `F` that the command
line does not supply holds the value of the configuration file when the file
sets `F`, and the built-in default of `F` when it does not. -/
theorem file_then_default (lib : Flags) (env : Env) (fs : FileSystem) (args : List String)
    (c : config) (F : Field)
    (hok : (loadConfig lib env fs args).cfg = some c)
    (hcmd : lastSet F (cmdLine lib args).sets = none) :
    (∀ v, lastSet F (fileLoad lib env fs args).sets = some v → c.get F = v) ∧
      (lastSet F (fileLoad lib env fs args).sets = none → c.get F = (defaultConfig env).get F) := by
  obtain ⟨_, _, rfl⟩ := loadConfig_success lib env fs args c hok
  rw [get_applyAll, hcmd, get_applyAll]
  constructor
  · intro v hv; rw [hv]; rfl
  · intro hv; rw [hv]; rfl

/-- Witness of C2: with `-s` alone on the command line, `rpcuser` comes from the
file and `rpcpass`, which the file does not set, keeps its default. -/
theorem file_then_default_witness :
    ((∀ v, lastSet .RpcUser (fileLoad goflags env0 fsDefaultFile ["-s", "cli.example:2"]).sets
          = some v →
        (⟨"/home/user/.btcctl/btcctl.conf", "alice", "", "cli.example:2",
          "/home/user/.btcd/rpc.cert", false⟩ : config).get .RpcUser = v) ∧
      (lastSet .RpcUser (fileLoad goflags env0 fsDefaultFile ["-s", "cli.example:2"]).sets
          = none →
        (⟨"/home/user/.btcctl/btcctl.conf", "alice", "", "cli.example:2",
          "/home/user/.btcd/rpc.cert", false⟩ : config).get .RpcUser
          = (defaultConfig env0).get .RpcUser)) ∧
      lastSet .RpcUser (fileLoad goflags env0 fsDefaultFile ["-s", "cli.example:2"]).sets
        = some (.str "alice") ∧
      lastSet .RpcUser (cmdLine goflags ["-s", "cli.example:2"]).sets = none ∧
      (loadConfig goflags env0 fsDefaultFile ["-s", "cli.example:2"]).cfg =
        some ⟨"/home/user/.btcctl/btcctl.conf", "alice", "", "cli.example:2",
          "/home/user/.btcd/rpc.cert", false⟩ :=
  ⟨file_then_default goflags env0 fsDefaultFile ["-s", "cli.example:2"]
      ⟨"/home/user/.btcctl/btcctl.conf", "alice", "", "cli.example:2",
        "/home/user/.btcd/rpc.cert", false⟩ .RpcUser (by decide) (by decide),
    by decide, by decide, by decide⟩

/-! ## The file stage -/

theorem cmdLine_nil : cmdLine goflags [] = ⟨[], [], none⟩ := rfl

theorem preParsedConfigFile_nil (env : Env) :
    preParsedConfigFile goflags env [] = defaultConfigFile env := rfl

theorem fileLoad_absent (env : Env) (fs : FileSystem) (args : List String)
    (h : fs (preParsedConfigFile goflags env args) = .absent) :
    fileLoad goflags env fs args =
      ⟨[], some (.PathError "open" (preParsedConfigFile goflags env args) .ENOENT)⟩ := by
  simp only [fileLoad, goflags, readIniFile]
  simp only [goflags] at h
  rw [h]

theorem loadConfig_absent (env : Env) (fs : FileSystem) (args : List String)
    (h : fs (preParsedConfigFile goflags env args) = .absent) :
    loadConfig goflags env fs args =
      match (cmdLine goflags args).err with
      | some e => ⟨none, none, some e, []⟩
      | none =>
        ⟨some (applyAll (defaultConfig env) (cmdLine goflags args).sets),
          some (cmdLine goflags args).retargs, none, []⟩ := by
  have hf := fileLoad_absent env fs args h
  rw [loadConfig_of_tolerated goflags env fs args (by rw [hf]; rfl), hf]
  rfl

theorem readIni_invalid (filename : String) (lines : List (List Char))
    (h : ∃ raw ∈ lines, invalidLine raw = true) (lineno : Nat) (sect : String) :
    ∃ msg n, readIni filename lineno sect lines = .error (.IniError msg filename n) := by
  induction lines generalizing lineno sect with
  | nil => simp at h
  | cons raw rest ih =>
    have hrest : invalidLine raw = false →
        ∀ k t, ∃ msg n, readIni filename k t rest = .error (.IniError msg filename n) := by
      intro hraw k t
      apply ih _ k t
      obtain ⟨r, hr, hinv⟩ := h
      rcases List.mem_cons.mp hr with rfl | hr
      · rw [hraw] at hinv; cases hinv
      · exact ⟨r, hr, hinv⟩
    unfold readIni
    unfold invalidLine at hrest
    cases hl : trimSpace raw with
    | nil =>
      simp only [hl] at hrest ⊢
      exact hrest trivial _ _
    | cons c body =>
      simp only [hl] at hrest ⊢
      by_cases hc : c = ';' ∨ c = '#'
      · simp only [hc, if_true] at hrest ⊢
        exact hrest trivial _ _
      · simp only [hc, if_false] at hrest ⊢
        by_cases hb : c = '['
        · simp only [hb, if_true] at hrest ⊢
          by_cases h1 : ('[' :: body).getLast? ≠ some ']'
          · rw [if_pos h1]; exact ⟨_, _, rfl⟩
          · rw [if_neg h1]
            by_cases h2 : trimSpace body.dropLast = []
            · rw [if_pos h2]; exact ⟨_, _, rfl⟩
            · rw [if_neg h2]
              apply hrest
              simp [h1, h2]
        · simp only [hb, if_false] at hrest ⊢
          cases hs : splitAtEq (c :: body) with
          | mk k v =>
            cases v with
            | none => exact ⟨_, _, rfl⟩
            | some v =>
              simp only [hs] at hrest ⊢
              obtain ⟨msg, n, he⟩ := hrest (by simp) (lineno + 1) sect
              rw [he]
              exact ⟨_, _, rfl⟩

theorem readIni_error_not_path (filename : String) (lines : List (List Char)) (lineno : Nat)
    (sect : String) (e : GoError) (h : readIni filename lineno sect lines = .error e) :
    e.isPathError = false := by
  induction lines generalizing lineno sect with
  | nil => simp [readIni] at h
  | cons raw rest ih =>
    unfold readIni at h
    simp only at h
    split at h
    · exact ih _ _ h
    · split at h
      · exact ih _ _ h
      · split at h
        · split at h
          · cases h; rfl
          · split at h
            · cases h; rfl
            · exact ih _ _ h
        · split at h
          · cases h; rfl
          · split at h
            · rename_i he
              cases h
              exact ih _ _ he
            · cases h

theorem parseIni_error_not_path (vs : List IniValue) (e : GoError)
    (h : (parseIni vs).err = some e) : e.isPathError = false := by
  induction vs with
  | nil => simp [parseIni] at h
  | cons v rest ih =>
    unfold parseIni at h
    split at h
    · cases h; rfl
    · split at h
      · cases h; rfl
      · cases h; rfl
      · exact ih h
      · split at h
        · exact ih h
        · split at h
          · cases h; rfl
          · exact ih h

theorem readIniFile_regular_error (opts : ParserOptions) (fs : FileSystem) (filename : String)
    (contents : String) (e : GoError) (hfile : fs filename = .regular contents)
    (h : (readIniFile opts fs filename).err = some e) : e.isPathError = false := by
  unfold readIniFile at h
  rw [hfile] at h
  simp only at h
  split at h
  · rename_i he
    cases h
    exact readIni_error_not_path _ _ _ _ _ he
  · exact parseIni_error_not_path _ _ h

/-- C3: with no command-line arguments and no file at the default path,
`loadConfig` succeeds and returns the built-in defaults: `ConfigFile` is the btcctl
application data directory joined with `btcctl.conf`, `RpcUser` and `RpcPassword`
are empty, `RpcServer` is `localhost:8334`, `RpcCert` is the btcd application data
directory joined with `rpc.cert`, `TlsSkipVerify` is false. -/
theorem defaults_when_nothing_given (env : Env) (fs : FileSystem)
    (h : fs (defaultConfigFile env) = .absent) :
    loadConfig goflags env fs [] = ⟨some (defaultConfig env), some [], none, []⟩ ∧
      defaultConfig env =
        ⟨env.Join (env.AppDataDir "btcctl" false) "btcctl.conf", "", "", "localhost:8334",
          env.Join (env.AppDataDir "btcd" false) "rpc.cert", false⟩ := by
  refine ⟨?_, rfl⟩
  rw [loadConfig_absent env fs [] (by rw [preParsedConfigFile_nil]; exact h), cmdLine_nil]
  rfl

/-- Witness of C3: an empty file system and a Unix home directory. -/
theorem defaults_when_nothing_given_witness :
    fsEmpty (defaultConfigFile env0) = .absent ∧
      loadConfig goflags env0 fsEmpty [] =
        ⟨some ⟨"/home/user/.btcctl/btcctl.conf", "", "", "localhost:8334",
          "/home/user/.btcd/rpc.cert", false⟩, some [], none, []⟩ :=
  ⟨rfl, (defaults_when_nothing_given env0 fsEmpty rfl).1⟩

/-- C5, as stated, fails: the default configuration file exists and may not be
opened, the load error is an `*os.PathError` carrying `EACCES` and not the
file-absent error, and `loadConfig` succeeds all the same. -/
theorem permission_denied_is_swallowed :
    (fileLoad goflags env0 fsDenied []).err
        = some (.PathError "open" "/home/user/.btcctl/btcctl.conf" .EACCES) ∧
      (GoError.PathError "open" "/home/user/.btcctl/btcctl.conf" .EACCES).isFileAbsent = false ∧
      loadConfig goflags env0 fsDenied [] = ⟨some (defaultConfig env0), some [], none, []⟩ := by
  decide

/-- C5, amended: for every error `e` returned by loading the configuration file, if `e`
is not an `*os.PathError` then `loadConfig` fails and returns `e` (nil config, nil
arguments, `e` printed); if `e` is an `*os.PathError`, whatever its cause, it is
swallowed and the error of `loadConfig` is that of the command-line parse. -/
theorem only_path_errors_are_swallowed (lib : Flags) (env : Env) (fs : FileSystem)
    (args : List String) (e : GoError) (h : (fileLoad lib env fs args).err = some e) :
    (e.isPathError = false → loadConfig lib env fs args = ⟨none, none, some e, [e]⟩) ∧
      (e.isPathError = true → (loadConfig lib env fs args).err = (cmdLine lib args).err) := by
  constructor
  · intro hp
    exact loadConfig_of_fatal lib env fs args e ((fatalFileError_eq_some _ _).mpr ⟨h, hp⟩)
  · intro hp
    have ht : fatalFileError (fileLoad lib env fs args).err = none := by
      cases hf : fatalFileError (fileLoad lib env fs args).err with
      | none => rfl
      | some x =>
        obtain ⟨hx, hx2⟩ := (fatalFileError_eq_some _ _).mp hf
        rw [h] at hx
        cases hx
        rw [hp] at hx2
        cases hx2
    rw [loadConfig_of_tolerated lib env fs args ht]
    cases (cmdLine lib args).err <;> rfl

/-- Witness of C5, amended: an invalid default file is fatal. -/
theorem only_path_errors_are_swallowed_witness :
    (fileLoad goflags env0 fsBadDefault []).err
        = some (.IniError "malformed key=value" "/home/user/.btcctl/btcctl.conf" 2) ∧
      ((GoError.IniError "malformed key=value" "/home/user/.btcctl/btcctl.conf" 2).isPathError
          = false →
        loadConfig goflags env0 fsBadDefault [] =
          ⟨none, none, some (.IniError "malformed key=value" "/home/user/.btcctl/btcctl.conf" 2),
            [.IniError "malformed key=value" "/home/user/.btcctl/btcctl.conf" 2]⟩) :=
  ⟨by decide,
    (only_path_errors_are_swallowed goflags env0 fsBadDefault []
      (.IniError "malformed key=value" "/home/user/.btcctl/btcctl.conf" 2) (by decide)).1⟩

/-- C6: when no file exists at the path the file is loaded from, `loadConfig` does not
fail because of it: for every argument list the authoritative parse accepts it
returns no error, the arguments the parse returns, and a record in which every
field holds the last value the command line supplies for it, or its built-in
default when the command line supplies none.  With `--skipverify` alone the
record is the defaults with `TlsSkipVerify` true. -/
theorem absent_file_is_not_an_error (env : Env) (fs : FileSystem) (args : List String)
    (habs : fs (preParsedConfigFile goflags env args) = .absent)
    (hcmd : (cmdLine goflags args).err = none) :
    loadConfig goflags env fs args =
        ⟨some (applyAll (defaultConfig env) (cmdLine goflags args).sets),
          some (cmdLine goflags args).retargs, none, []⟩ ∧
      (∀ F, (applyAll (defaultConfig env) (cmdLine goflags args).sets).get F =
        match lastSet F (cmdLine goflags args).sets with
        | some v => v
        | none => (defaultConfig env).get F) ∧
      (args = ["--skipverify"] →
        loadConfig goflags env fs args =
          ⟨some { defaultConfig env with TlsSkipVerify := true }, some [], none, []⟩) := by
  have hload := loadConfig_absent env fs args habs
  rw [hcmd] at hload
  refine ⟨hload, ?_, ?_⟩
  · intro F
    rw [get_applyAll]
    cases lastSet F (cmdLine goflags args).sets <;> rfl
  · intro ha
    subst ha
    rw [hload]
    rfl

/-- Witness of C6: `--skipverify` alone on an empty file system. -/
theorem absent_file_is_not_an_error_witness :
    fsEmpty (preParsedConfigFile goflags env0 ["--skipverify"]) = .absent ∧
      (cmdLine goflags ["--skipverify"]).err = none ∧
      loadConfig goflags env0 fsEmpty ["--skipverify"] =
        ⟨some ⟨"/home/user/.btcctl/btcctl.conf", "", "", "localhost:8334",
          "/home/user/.btcd/rpc.cert", true⟩, some [], none, []⟩ :=
  ⟨rfl, by decide,
    (absent_file_is_not_an_error env0 fsEmpty ["--skipverify"] rfl (by decide)).2.2 rfl⟩

/-- C7: when the configuration file exists and has a line with invalid syntax,
`loadConfig` returns the ini error of that file, a nil config and nil remaining
arguments, for every argument list; and so it does with every other error met
while loading an existing file (an unknown option or group, an invalid boolean). -/
theorem invalid_file_is_fatal (env : Env) (fs : FileSystem) (args : List String)
    (contents : String)
    (hfile : fs (preParsedConfigFile goflags env args) = .regular contents) :
    ((∃ raw ∈ splitLines contents.data, invalidLine raw = true) →
      ∃ msg n, loadConfig goflags env fs args =
        ⟨none, none, some (.IniError msg (preParsedConfigFile goflags env args) n),
          [.IniError msg (preParsedConfigFile goflags env args) n]⟩) ∧
      (∀ e, (fileLoad goflags env fs args).err = some e →
        loadConfig goflags env fs args = ⟨none, none, some e, [e]⟩) := by
  constructor
  · intro hbad
    obtain ⟨msg, n, he⟩ :=
      readIni_invalid (preParsedConfigFile goflags env args) _ hbad 0 ""
    refine ⟨msg, n, loadConfig_of_fatal goflags env fs args _ ?_⟩
    rw [fatalFileError_eq_some]
    refine ⟨?_, rfl⟩
    simp only [fileLoad, goflags, readIniFile]
    simp only [goflags] at hfile he
    rw [hfile]
    simp only [he]
  · intro e he
    apply loadConfig_of_fatal
    rw [fatalFileError_eq_some]
    exact ⟨he, readIniFile_regular_error ParserOptions.PassDoubleDashHelpFlag fs
      (preParsedConfigFile goflags env args) contents e hfile he⟩

/-- Witness of C7: the second line of the default file is not `name = value`; the
command line is valid. -/
theorem invalid_file_is_fatal_witness :
    fsBadDefault (preParsedConfigFile goflags env0 ["-u", "bob", "getinfo"])
        = .regular "rpcuser=alice\nnot an option line\n" ∧
      (∃ raw ∈ splitLines "rpcuser=alice\nnot an option line\n".data, invalidLine raw = true) ∧
      (∃ msg n, loadConfig goflags env0 fsBadDefault ["-u", "bob", "getinfo"] =
        ⟨none, none,
          some (.IniError msg (preParsedConfigFile goflags env0 ["-u", "bob", "getinfo"]) n),
          [.IniError msg (preParsedConfigFile goflags env0 ["-u", "bob", "getinfo"]) n]⟩) :=
  ⟨by decide, ⟨"not an option line".data, by decide, by decide⟩,
    (invalid_file_is_fatal env0 fsBadDefault ["-u", "bob", "getinfo"]
      "rpcuser=alice\nnot an option line\n" (by decide)).1
      ⟨"not an option line".data, by decide, by decide⟩⟩

/-! ## The command-line stage -/

/-- C8: when the authoritative command-line parse runs and fails with error `e`,
`loadConfig` returns `e` with a nil config and nil remaining arguments. -/
theorem command_line_error_returns_nil (lib : Flags) (env : Env) (fs : FileSystem)
    (args : List String) (e : GoError)
    (hfile : fatalFileError (fileLoad lib env fs args).err = none)
    (hcmd : (cmdLine lib args).err = some e) :
    loadConfig lib env fs args = ⟨none, none, some e, []⟩ := by
  rw [loadConfig_of_tolerated lib env fs args hfile, hcmd]

/-- Witness of C8: an unknown option, a missing option value, an argument given to
a boolean option, and a request for help. -/
theorem command_line_error_returns_nil_witness :
    loadConfig goflags env0 fsDefaultFile ["-u", "bob", "--bogus"] =
        ⟨none, none, some (.FlagsError .ErrUnknownFlag "bogus"), []⟩ ∧
      loadConfig goflags env0 fsDefaultFile ["getinfo", "-u"] =
        ⟨none, none, some (.FlagsError .ErrExpectedArgument "-u"), []⟩ ∧
      loadConfig goflags env0 fsDefaultFile ["--skipverify=1"] =
        ⟨none, none, some (.FlagsError .ErrNoArgumentForBool "skipverify"), []⟩ ∧
      loadConfig goflags env0 fsEmpty ["--help"] =
        ⟨none, none, some (.FlagsError .ErrHelp "help"), []⟩ :=
  ⟨command_line_error_returns_nil goflags env0 fsDefaultFile _ _ (by decide) (by decide),
    command_line_error_returns_nil goflags env0 fsDefaultFile _ _ (by decide) (by decide),
    command_line_error_returns_nil goflags env0 fsDefaultFile _ _ (by decide) (by decide),
    command_line_error_returns_nil goflags env0 fsEmpty _ _ (by decide) (by decide)⟩

/-- C10: a fatal configuration-file error is returned before the authoritative
command-line parse is run: when loading the file at the pre-parsed path fails
with an error `e` that is not an `*os.PathError`, `loadConfig` returns `e`, and so does
it with any other authoritative parse in place of the library one, whatever that
parse would answer for the argument list (an error, help, or success). -/
theorem file_error_precedes_command_line (lib : Flags) (env : Env) (fs : FileSystem)
    (args : List String) (e : GoError)
    (h : (fileLoad lib env fs args).err = some e) (hp : e.isPathError = false) :
    loadConfig lib env fs args = ⟨none, none, some e, [e]⟩ ∧
      ∀ lib2 : Flags, lib2.readIniFile = lib.readIniFile →
        lib2.parseArgs ParserOptions.None = lib.parseArgs ParserOptions.None →
        loadConfig lib2 env fs args = ⟨none, none, some e, [e]⟩ := by
  refine ⟨loadConfig_of_fatal lib env fs args e ((fatalFileError_eq_some _ _).mpr ⟨h, hp⟩), ?_⟩
  intro lib2 hini hpre
  apply loadConfig_of_fatal
  rw [fatalFileError_eq_some]
  refine ⟨?_, hp⟩
  rw [← h]
  simp only [fileLoad, preParsedConfigFile, Flags.Parse, hini, hpre]

/-- Witness of C10: the default file is invalid and the command line asks for help;
the file error is returned, not the help error. -/
theorem file_error_precedes_command_line_witness :
    (cmdLine goflags ["--help"]).err = some (.FlagsError .ErrHelp "help") ∧
      loadConfig goflags env0 fsBadDefault ["--help"] =
        ⟨none, none, some (.IniError "malformed key=value" "/home/user/.btcctl/btcctl.conf" 2),
          [.IniError "malformed key=value" "/home/user/.btcctl/btcctl.conf" 2]⟩ :=
  ⟨by decide,
    (file_error_precedes_command_line goflags env0 fsBadDefault ["--help"]
      (.IniError "malformed key=value" "/home/user/.btcctl/btcctl.conf" 2)
      (by decide) (by decide)).1⟩

/-! ## The command-line parse of the concrete library -/

theorem list_two_step {α : Type} {P : List α → Prop} (nil : P [])
    (step : ∀ a rest, P rest → (∀ v rest', rest = v :: rest' → P rest') → P (a :: rest)) :
    ∀ l, P l := by
  have key : ∀ l, P l ∧ ∀ a, P (a :: l) := by
    intro l
    induction l with
    | nil =>
      refine ⟨nil, fun a => step a [] nil ?_⟩
      intro v rest' h
      cases h
    | cons v rest' ih =>
      refine ⟨ih.2 v, fun a => step a (v :: rest') (ih.2 v) ?_⟩
      intro v2 rest2 h
      cases h
      exact ih.1
  exact fun l => (key l).1

theorem lookupShort_cases (opts : ParserOptions) (c : Char) :
    (∃ store, lookupShort opts c = some (.str store) ∧ c ∈ ['C', 'u', 'P', 's', 'c']) ∨
      lookupShort opts c = some .help ∨ lookupShort opts c = none := by
  by_cases h1 : c = 'C'
  · subst h1; exact Or.inl ⟨_, rfl, by decide⟩
  by_cases h2 : c = 'u'
  · subst h2; exact Or.inl ⟨_, rfl, by decide⟩
  by_cases h3 : c = 'P'
  · subst h3; exact Or.inl ⟨_, rfl, by decide⟩
  by_cases h4 : c = 's'
  · subst h4; exact Or.inl ⟨_, rfl, by decide⟩
  by_cases h5 : c = 'c'
  · subst h5; exact Or.inl ⟨_, rfl, by decide⟩
  right
  have e1 : (c == 'C') = false := by simpa using h1
  have e2 : (c == 'u') = false := by simpa using h2
  have e3 : (c == 'P') = false := by simpa using h3
  have e4 : (c == 's') = false := by simpa using h4
  have e5 : (c == 'c') = false := by simpa using h5
  simp only [lookupShort, shortNames, List.lookup, e1, e2, e3, e4, e5]
  by_cases hh : (opts.HelpFlag && c == 'h') = true
  · left; simp [hh]
  · right; simp [hh]

theorem lookupLong_cases (opts : ParserOptions) (name : String) :
    (∃ store, lookupLong opts name = some (.str store) ∧
        name ∈ ["configfile", "rpcuser", "rpcpass", "rpcserver", "rpccert"]) ∨
      (∃ store, lookupLong opts name = some (.bool store)) ∨
      lookupLong opts name = some .help ∨ lookupLong opts name = none := by
  by_cases h1 : name = "configfile"
  · subst h1; exact Or.inl ⟨_, rfl, by decide⟩
  by_cases h2 : name = "rpcuser"
  · subst h2; exact Or.inl ⟨_, rfl, by decide⟩
  by_cases h3 : name = "rpcpass"
  · subst h3; exact Or.inl ⟨_, rfl, by decide⟩
  by_cases h4 : name = "rpcserver"
  · subst h4; exact Or.inl ⟨_, rfl, by decide⟩
  by_cases h5 : name = "rpccert"
  · subst h5; exact Or.inl ⟨_, rfl, by decide⟩
  by_cases h6 : name = "skipverify"
  · subst h6; exact Or.inr (Or.inl ⟨_, rfl⟩)
  right; right
  have e1 : (name == "configfile") = false := by simpa using h1
  have e2 : (name == "rpcuser") = false := by simpa using h2
  have e3 : (name == "rpcpass") = false := by simpa using h3
  have e4 : (name == "rpcserver") = false := by simpa using h4
  have e5 : (name == "rpccert") = false := by simpa using h5
  have e6 : (name == "skipverify") = false := by simpa using h6
  simp only [lookupLong, longNames, List.lookup, e1, e2, e3, e4, e5, e6]
  by_cases hh : (opts.HelpFlag && name == "help") = true
  · left; simp [hh]
  · right; simp [hh]

theorem lookupShort_None (c : Char) :
    lookupShort ParserOptions.None c = lookupShort ParserOptions.PassDoubleDashHelpFlag c ∨
      (lookupShort ParserOptions.None c = none ∧
        lookupShort ParserOptions.PassDoubleDashHelpFlag c = some .help) := by
  unfold lookupShort
  cases shortNames.lookup c with
  | some k => exact Or.inl rfl
  | none =>
    by_cases h : c = 'h'
    · right; subst h; exact ⟨rfl, rfl⟩
    · left
      simp [ParserOptions.None, ParserOptions.PassDoubleDashHelpFlag, h]

theorem lookupLong_None (name : String) :
    lookupLong ParserOptions.None name = lookupLong ParserOptions.PassDoubleDashHelpFlag name ∨
      (lookupLong ParserOptions.None name = none ∧
        lookupLong ParserOptions.PassDoubleDashHelpFlag name = some .help) := by
  unfold lookupLong
  cases longNames.lookup name with
  | some k => exact Or.inl rfl
  | none =>
    by_cases h : name = "help"
    · right; subst h; exact ⟨rfl, rfl⟩
    · left
      simp [ParserOptions.None, ParserOptions.PassDoubleDashHelpFlag, h]

theorem ArgStep.agree_refl (s : ArgStep) : s.agree s := by
  cases s <;> simp [ArgStep.agree]

theorem ArgStep.agree_after (pre : List Setting) (s t : ArgStep) (h : s.agree t) :
    (s.after pre).agree (t.after pre) := by
  cases s <;> cases t <;> simp_all [ArgStep.agree, ArgStep.after]

theorem parseLong_agree (name : String) (argument : Option String) :
    (parseLong ParserOptions.None name argument).agree
      (parseLong ParserOptions.PassDoubleDashHelpFlag name argument) := by
  unfold parseLong
  rcases lookupLong_None name with h | ⟨h1, h2⟩
  · rw [h]; exact ArgStep.agree_refl _
  · rw [h1, h2]; cases argument <;> simp [ArgStep.agree]

theorem parseShortLoop_nil (opts : ParserOptions) (argument : Option String) :
    parseShortLoop opts [] argument = .done [] := rfl

theorem parseShortLoop_cons (opts : ParserOptions) (c : Char) (cs : List Char)
    (argument : Option String) :
    parseShortLoop opts (c :: cs) argument =
      match lookupShort opts c with
      | none => .fail [] (.FlagsError .ErrUnknownFlag (String.mk [c]))
      | some (.str store) =>
        match argument with
        | some v => (parseShortLoop opts cs none).after [store v]
        | none =>
          if cs.isEmpty then .needValue [] store
          else .fail [] (.FlagsError .ErrExpectedArgument (String.mk [c]))
      | some (.bool store) =>
        match argument with
        | some _ => .fail [] (.FlagsError .ErrNoArgumentForBool (String.mk [c]))
        | none => (parseShortLoop opts cs none).after [store true]
      | some .help =>
        match argument with
        | some _ => .fail [] (.FlagsError .ErrNoArgumentForBool (String.mk [c]))
        | none => .fail [] (.FlagsError .ErrHelp (String.mk [c])) := rfl

theorem parseShortLoop_agree (cs : List Char) (argument : Option String) :
    (parseShortLoop ParserOptions.None cs argument).agree
      (parseShortLoop ParserOptions.PassDoubleDashHelpFlag cs argument) := by
  induction cs generalizing argument with
  | nil => simp [parseShortLoop_nil, ArgStep.agree]
  | cons c cs ih =>
    rw [parseShortLoop_cons, parseShortLoop_cons]
    rcases lookupShort_None c with h | ⟨h1, h2⟩
    · rw [h]
      cases lookupShort ParserOptions.PassDoubleDashHelpFlag c with
      | none => exact ArgStep.agree_refl _
      | some k =>
        cases k with
        | str store =>
          cases argument with
          | none => exact ArgStep.agree_refl _
          | some v => exact ArgStep.agree_after _ _ _ (ih none)
        | bool store =>
          cases argument with
          | none => exact ArgStep.agree_after _ _ _ (ih none)
          | some v => exact ArgStep.agree_refl _
        | help => exact ArgStep.agree_refl _
    · rw [h1, h2]; cases argument <;> simp [ArgStep.agree]

theorem splitShortConcatArg_None (optname : List Char) :
    splitShortConcatArg ParserOptions.None optname =
      splitShortConcatArg ParserOptions.PassDoubleDashHelpFlag optname := by
  unfold splitShortConcatArg
  match optname with
  | [] => rfl
  | [_] => rfl
  | c :: d :: ds =>
    rcases lookupShort_None c with h | ⟨h1, h2⟩
    · simp only [h]
    · simp only [h1, h2]

theorem parseShort_agree (optname : List Char) (argument : Option String) :
    (parseShort ParserOptions.None optname argument).agree
      (parseShort ParserOptions.PassDoubleDashHelpFlag optname argument) := by
  unfold parseShort
  cases argument with
  | some a => exact parseShortLoop_agree _ _
  | none =>
    simp only [splitShortConcatArg_None]
    exact parseShortLoop_agree _ _

theorem parseOptionArg_agree (arg : String) :
    (parseOptionArg ParserOptions.None arg).agree
      (parseOptionArg ParserOptions.PassDoubleDashHelpFlag arg) := by
  unfold parseOptionArg
  split
  · exact parseLong_agree _ _
  · exact parseShort_agree _ _
  · exact parseShort_agree _ _
  · exact ArgStep.agree_refl _

/-- The pre-parse makes the assignments of the authoritative parse and then, when
that parse ends the options at a `--`, those it reads in the arguments after it. -/
theorem parseArgs_sets_None (args : List String) :
    (parseArgs ParserOptions.None args).sets =
      (parseArgs ParserOptions.PassDoubleDashHelpFlag args).sets ++
        (parseArgs ParserOptions.None (argsAfterTerminator args)).sets := by
  refine list_two_step (P := fun args =>
    (parseArgs ParserOptions.None args).sets =
      (parseArgs ParserOptions.PassDoubleDashHelpFlag args).sets ++
        (parseArgs ParserOptions.None (argsAfterTerminator args)).sets) ?_ ?_ args
  · rfl
  · intro arg rest ih1 ih2
    by_cases harg : arg = "--"
    · subst harg
      rfl
    have hb : (arg == "--") = false := by simpa using harg
    rw [parseArgs, parseArgs]
    simp only [argsAfterTerminator, argsAfterTerminatorFrom]
    simp only [ParserOptions.None, ParserOptions.PassDoubleDashHelpFlag, hb, Bool.and_false,
      Bool.false_and, Bool.false_eq_true, if_false]
    by_cases hopt : argumentIsOption arg = true
    · simp only [hopt, Bool.not_true, Bool.false_eq_true, if_false]
      have hag := parseOptionArg_agree arg
      simp only [ParserOptions.None, ParserOptions.PassDoubleDashHelpFlag] at hag
      cases h1 : parseOptionArg ⟨false, false⟩ arg <;>
        cases h2 : parseOptionArg ⟨true, true⟩ arg <;>
        simp only [h1, h2, ArgStep.agree] at hag
      · subst hag
        have := ih1
        simp only [ParserOptions.None, ParserOptions.PassDoubleDashHelpFlag,
          argsAfterTerminator] at this
        simp only [this, List.append_assoc]
      · obtain ⟨rfl, rfl⟩ := hag
        cases rest with
        | nil => simp [parseArgs]
        | cons v rest' =>
          have := ih2 v rest' rfl
          simp only [ParserOptions.None, ParserOptions.PassDoubleDashHelpFlag,
            argsAfterTerminator] at this
          simp only [this, List.append_assoc, List.cons_append, argsAfterTerminatorFrom]
      · subst hag
        simp [parseArgs]
    · simp only [hopt, Bool.not_false, if_true]
      have := ih1
      simp only [ParserOptions.None, ParserOptions.PassDoubleDashHelpFlag,
        argsAfterTerminator] at this
      simp only [this]

theorem splitAtEq_none (cs n : List Char) (h : splitAtEq cs = (n, none)) : n = cs := by
  induction cs generalizing n with
  | nil => simp [splitAtEq] at h; exact h
  | cons c cs ih =>
    unfold splitAtEq at h
    by_cases hc : c = '='
    · simp [hc] at h
    · simp only [hc, if_false, Prod.mk.injEq] at h
      obtain ⟨h1, h2⟩ := h
      have := ih (splitAtEq cs).1 (Prod.ext rfl h2)
      rw [← h1, this]

theorem parseLong_needValue (opts : ParserOptions) (name : String) (argument : Option String)
    (sets : List Setting) (store : String → Setting)
    (h : parseLong opts name argument = .needValue sets store) :
    argument = none ∧
      name ∈ ["configfile", "rpcuser", "rpcpass", "rpcserver", "rpccert"] := by
  unfold parseLong at h
  rcases lookupLong_cases opts name with ⟨st, hl, hm⟩ | ⟨st, hl⟩ | hl | hl <;>
    rw [hl] at h <;> cases argument <;> simp at h
  exact ⟨rfl, hm⟩

theorem parseShortLoop_none_needValue (opts : ParserOptions) (cs : List Char)
    (sets : List Setting) (store : String → Setting)
    (h : parseShortLoop opts cs none = .needValue sets store) :
    ∃ c, cs = [c] ∧ c ∈ ['C', 'u', 'P', 's', 'c'] := by
  cases cs with
  | nil => simp [parseShortLoop_nil] at h
  | cons c cs =>
    rw [parseShortLoop_cons] at h
    rcases lookupShort_cases opts c with ⟨st, hl, hm⟩ | hl | hl <;> rw [hl] at h <;>
      simp only [reduceCtorEq] at h
    cases cs with
    | nil => exact ⟨c, rfl, hm⟩
    | cons d ds => simp at h

theorem parseShortLoop_some_not_needValue (opts : ParserOptions) (c : Char) (a : String)
    (sets : List Setting) (store : String → Setting) :
    parseShortLoop opts [c] (some a) ≠ .needValue sets store := by
  intro h
  rw [parseShortLoop_cons] at h
  rcases lookupShort_cases opts c with ⟨st, hl, _⟩ | hl | hl <;> rw [hl] at h <;>
    simp [parseShortLoop_nil, ArgStep.after] at h

theorem parseShort_none_needValue (opts : ParserOptions) (body : List Char)
    (sets : List Setting) (store : String → Setting)
    (h : parseShort opts body none = .needValue sets store) :
    ∃ c, body = [c] ∧ c ∈ ['C', 'u', 'P', 's', 'c'] := by
  unfold parseShort splitShortConcatArg at h
  match body, h with
  | [], h => exact parseShortLoop_none_needValue opts _ sets store h
  | [c], h => exact parseShortLoop_none_needValue opts _ sets store h
  | c :: d :: ds, h =>
    simp only at h
    rcases lookupShort_cases opts c with ⟨st, hl, _⟩ | hl | hl <;> rw [hl] at h <;>
      simp only at h
    · exact absurd h (parseShortLoop_some_not_needValue opts c _ sets store)
    · exact parseShortLoop_none_needValue opts _ sets store h
    · exact parseShortLoop_none_needValue opts _ sets store h

theorem parseOptionArg_needValue (opts : ParserOptions) (arg : String)
    (sets : List Setting) (store : String → Setting)
    (h : parseOptionArg opts arg = .needValue sets store) : arg ∈ valueOptions := by
  obtain ⟨data⟩ := arg
  unfold parseOptionArg at h
  simp only at h
  split at h
  · rename_i body
    obtain ⟨ha, hn⟩ := parseLong_needValue _ _ _ _ _ h
    have h2 : (splitAtEq body).2 = none := by
      cases hs : (splitAtEq body).2 with
      | none => rfl
      | some x => rw [hs] at ha; simp at ha
    have h1 : (splitAtEq body).1 = body := splitAtEq_none body _ (Prod.ext rfl h2)
    rw [h1] at hn
    simp only [List.mem_cons, List.mem_singleton, List.not_mem_nil, or_false] at hn
    rcases hn with hb | hb | hb | hb | hb <;>
      (have hd : body = _ := congrArg String.data hb
       subst hd
       decide)
  · exact absurd h (by
      unfold parseShort
      exact parseShortLoop_some_not_needValue _ _ _ _ _)
  · rename_i body _ _
    obtain ⟨c, hb, hc⟩ := parseShort_none_needValue _ _ _ _ h
    subst hb
    simp only [List.mem_cons, List.mem_singleton, List.not_mem_nil, or_false] at hc
    rcases hc with hb | hb | hb | hb | hb <;> subst hb <;> decide
  · simp at h

theorem valueOptions_needValue (opts : ParserOptions) (arg : String) (h : arg ∈ valueOptions) :
    argumentIsOption arg = true ∧ arg ≠ "--" ∧
      ∃ store, parseOptionArg opts arg = .needValue [] store := by
  simp only [valueOptions, List.mem_cons, List.mem_singleton, List.not_mem_nil, or_false] at h
  rcases h with h | h | h | h | h | h | h | h | h | h <;> subst h <;>
    exact ⟨by decide, by decide, _, rfl⟩

theorem parseArgs_retargs (args : List String)
    (h : (parseArgs ParserOptions.PassDoubleDashHelpFlag args).err = none) :
    (parseArgs ParserOptions.PassDoubleDashHelpFlag args).retargs = positionalArgs args := by
  revert h
  refine list_two_step (P := fun args =>
    (parseArgs ParserOptions.PassDoubleDashHelpFlag args).err = none →
      (parseArgs ParserOptions.PassDoubleDashHelpFlag args).retargs = positionalArgs args)
    ?_ ?_ args
  · intro _; rfl
  · intro arg rest ih1 ih2 h
    unfold parseArgs at h ⊢
    unfold positionalArgs
    by_cases hdd : arg = "--"
    · subst hdd; rfl
    · have hb : (arg == "--") = false := by simpa using hdd
      simp only [hb, Bool.and_false, Bool.false_eq_true, if_false, hdd] at h ⊢
      by_cases hv : arg ∈ valueOptions
      · obtain ⟨hopt, _, store, hstep⟩ :=
          valueOptions_needValue ParserOptions.PassDoubleDashHelpFlag arg hv
        simp only [hopt, hstep, Bool.not_true, Bool.false_eq_true, if_false, hv, if_true] at h ⊢
        cases rest with
        | nil => simp at h
        | cons v rest' => exact ih2 v rest' rfl h
      · simp only [hv, if_false]
        by_cases hopt : argumentIsOption arg = true
        · simp only [hopt, Bool.not_true, Bool.false_eq_true, if_false, if_true] at h ⊢
          cases hstep : parseOptionArg ParserOptions.PassDoubleDashHelpFlag arg with
          | done sets =>
            rw [hstep] at h
            exact ih1 h
          | fail sets e => rw [hstep] at h; simp at h
          | needValue sets store => exact absurd (parseOptionArg_needValue _ _ _ _ hstep) hv
        · simp only [hopt, Bool.not_false, if_true, Bool.false_eq_true, if_false] at h ⊢
          rw [ih1 h]

theorem positionalArgs_sublist (args : List String) : (positionalArgs args).Sublist args := by
  refine list_two_step (P := fun args => (positionalArgs args).Sublist args) ?_ ?_ args
  · exact List.Sublist.slnil
  · intro arg rest ih1 ih2
    unfold positionalArgs
    split
    · exact List.sublist_cons_self _ _
    · split
      · cases rest with
        | nil => exact List.nil_sublist _
        | cons v rest' => exact ((ih2 v rest' rfl).cons v).cons arg
      · split
        · exact ih1.cons arg
        · exact ih1.cons₂ arg

theorem loadConfig_err_none (lib : Flags) (env : Env) (fs : FileSystem) (args : List String)
    (h : (loadConfig lib env fs args).err = none) :
    fatalFileError (fileLoad lib env fs args).err = none ∧ (cmdLine lib args).err = none := by
  cases hf : fatalFileError (fileLoad lib env fs args).err with
  | some e => rw [loadConfig_of_fatal lib env fs args e hf] at h; simp at h
  | none =>
    rw [loadConfig_of_tolerated lib env fs args hf] at h
    cases hc : (cmdLine lib args).err with
    | some e => rw [hc] at h; simp at h
    | none => exact ⟨rfl, rfl⟩

theorem loadConfig_congr_fs (env : Env) (fs fs' : FileSystem) (args : List String)
    (h : fs (preParsedConfigFile goflags env args) = fs' (preParsedConfigFile goflags env args)) :
    loadConfig goflags env fs args = loadConfig goflags env fs' args := by
  have hf : fileLoad goflags env fs args = fileLoad goflags env fs' args := by
    simp only [fileLoad, goflags, readIniFile]
    simp only [goflags] at h
    rw [h]
  rw [loadConfig_eq, loadConfig_eq, hf]

theorem preParsedConfigFile_eq (env : Env) (args : List String) (p : String)
    (hset : lastSet .ConfigFile (cmdLine goflags args).sets = some (.str p))
    (htail : lastSet .ConfigFile
        (parseArgs ParserOptions.None (argsAfterTerminator args)).sets = none ∨
      lastSet .ConfigFile
        (parseArgs ParserOptions.None (argsAfterTerminator args)).sets = some (.str p)) :
    preParsedConfigFile goflags env args = p := by
  have hs : lastSet .ConfigFile (parseArgs ParserOptions.None args).sets = some (.str p) := by
    rw [parseArgs_sets_None args, lastSet_append]
    rcases htail with h | h
    · rw [h]; exact hset
    · rw [h]
  have hg := get_applyAll (parseArgs ParserOptions.None args).sets (defaultConfig env) .ConfigFile
  rw [hs] at hg
  simp only [config.get, Option.getD_some, Value.str.injEq] at hg
  exact hg

theorem positionalArgs_eq_nonOptionArgs (args : List String) (h : "--" ∉ args) :
    positionalArgs args = nonOptionArgs args := by
  revert h
  refine list_two_step (P := fun args => "--" ∉ args →
    positionalArgs args = nonOptionArgs args) ?_ ?_ args
  · intro _; rfl
  · intro arg rest ih1 ih2 h
    have harg : arg ≠ "--" := fun e => h (e ▸ List.mem_cons_self _ _)
    have hrest : "--" ∉ rest := fun e => h (List.mem_cons_of_mem _ e)
    unfold positionalArgs nonOptionArgs
    simp only [harg, if_false]
    split
    · cases rest with
      | nil => rfl
      | cons v rest' => exact ih2 v rest' rfl (fun e => hrest (List.mem_cons_of_mem _ e))
    · split
      · exact ih1 hrest
      · rw [ih1 hrest]

/-- C9, as stated, fails: on `-- -s host:1` the call succeeds and returns `-s` and
`host:1`, a recognized option and the value after it, and does not return `--`,
which is neither a recognized option nor a value; the arguments that are not
recognized options nor their values are `--` alone. -/
theorem options_after_double_dash_are_returned :
    loadConfig goflags env0 fsEmpty ["--", "-s", "host:1"] =
        ⟨some (defaultConfig env0), some ["-s", "host:1"], none, []⟩ ∧
      nonOptionArgs ["--", "-s", "host:1"] = ["--"] := by
  decide

/-- C9, amended: on success, the remaining arguments `loadConfig` returns are, as they
were given and in their order, the command-line arguments before the `--` that
ends the options which are neither recognized options nor values taken by
options, followed by every argument after that `--`, recognized options and
their values included; the `--` itself is not returned.  Without a `--` among the
arguments they are exactly the arguments that are not recognized options nor
values taken by options. -/
theorem remaining_args_are_positional (env : Env) (fs : FileSystem) (args : List String)
    (h : (loadConfig goflags env fs args).err = none) :
    (loadConfig goflags env fs args).remainingArgs = some (positionalArgs args) ∧
      (positionalArgs args).Sublist args ∧
      ("--" ∉ args →
        (loadConfig goflags env fs args).remainingArgs = some (nonOptionArgs args)) := by
  obtain ⟨hf, hc⟩ := loadConfig_err_none goflags env fs args h
  have hrem : (loadConfig goflags env fs args).remainingArgs = some (positionalArgs args) := by
    rw [loadConfig_of_tolerated goflags env fs args hf, hc]
    simp only [Option.some.injEq]
    exact parseArgs_retargs args hc
  refine ⟨hrem, positionalArgs_sublist args, ?_⟩
  intro hdd
  rw [hrem, positionalArgs_eq_nonOptionArgs args hdd]

/-- Witness of C9, amended: a command name and a parameter after two options, then
`--` and a parameter that starts with a dash. -/
theorem remaining_args_are_positional_witness :
    (loadConfig goflags env0 fsEmpty
        ["--rpcuser", "bob", "-sexample.com:9000", "getblock", "00ab", "--", "-1"]).err
        = none ∧
      (loadConfig goflags env0 fsEmpty
        ["--rpcuser", "bob", "-sexample.com:9000", "getblock", "00ab", "--", "-1"]).remainingArgs
        = some ["getblock", "00ab", "-1"] :=
  ⟨by decide,
    (remaining_args_are_positional env0 fsEmpty
      ["--rpcuser", "bob", "-sexample.com:9000", "getblock", "00ab", "--", "-1"]
      (by decide)).1⟩

/-- C4, as stated, fails, in two ways.  With `--bogus -C /custom/path.conf` the pre-parse
stops at the unknown option, the file at the default path is the one read, and
its error is what `loadConfig` returns.  With
`-C /custom/path.conf -- -C /other.conf` the authoritative parse reads the first option
only and returns the rest, the pre-parse reads the one after `--` too, and the
file loaded is `/other.conf`: the call succeeds with the server of that file. -/
theorem config_file_option_after_error_is_ignored :
    (fsBadDefaultGoodCustom "/custom/path.conf" = .regular "rpcserver=example.com:9000\n" ∧
      preParsedConfigFile goflags env0 ["--bogus", "-C", "/custom/path.conf"]
        = "/home/user/.btcctl/btcctl.conf" ∧
      loadConfig goflags env0 fsBadDefaultGoodCustom ["--bogus", "-C", "/custom/path.conf"] =
        ⟨none, none, some (.IniError "malformed key=value" "/home/user/.btcctl/btcctl.conf" 2),
          [.IniError "malformed key=value" "/home/user/.btcctl/btcctl.conf" 2]⟩) ∧
      (lastSet .ConfigFile
          (cmdLine goflags ["-C", "/custom/path.conf", "--", "-C", "/other.conf"]).sets
          = some (.str "/custom/path.conf") ∧
        preParsedConfigFile goflags env0 ["-C", "/custom/path.conf", "--", "-C", "/other.conf"]
          = "/other.conf" ∧
        loadConfig goflags env0 fsTwoCustom
            ["-C", "/custom/path.conf", "--", "-C", "/other.conf"] =
          ⟨some ⟨"/custom/path.conf", "", "", "other.example:1", "/home/user/.btcd/rpc.cert",
            false⟩, some ["-C", "/other.conf"], none, []⟩) := by
  decide

/-- C4, amended: for every argument list in which the authoritative parse reads a
configuration-file option before any error, the last one with path `p`, and in
which the pre-parse reads no configuration-file option with another path after
the `--` that ends the options: the file `loadConfig` loads is the one at `p`, so that
its result depends on the file system through that file only; and when that file
sets `rpcserver` to `v` and the command line does not set it, the resolved `RpcServer`
is `v`. -/
theorem config_file_option_is_honoured (env : Env) (args : List String) (p : String)
    (hset : lastSet .ConfigFile (cmdLine goflags args).sets = some (.str p))
    (htail : lastSet .ConfigFile
        (parseArgs ParserOptions.None (argsAfterTerminator args)).sets = none ∨
      lastSet .ConfigFile
        (parseArgs ParserOptions.None (argsAfterTerminator args)).sets = some (.str p)) :
    preParsedConfigFile goflags env args = p ∧
      (∀ fs fs' : FileSystem, fs p = fs' p →
        loadConfig goflags env fs args = loadConfig goflags env fs' args) ∧
      (∀ (fs : FileSystem) (c : config) (v : String),
        (loadConfig goflags env fs args).cfg = some c →
        lastSet .RpcServer (readIniFile ParserOptions.PassDoubleDashHelpFlag fs p).sets
          = some (.str v) →
        lastSet .RpcServer (cmdLine goflags args).sets = none →
        c.RpcServer = v) := by
  have hp := preParsedConfigFile_eq env args p hset htail
  refine ⟨hp, ?_, ?_⟩
  · intro fs fs' h
    exact loadConfig_congr_fs env fs fs' args (by rw [hp]; exact h)
  · intro fs c v hok hfile hcmd
    obtain ⟨_, _, rfl⟩ := loadConfig_success goflags env fs args c hok
    have hfl : (fileLoad goflags env fs args).sets =
        (readIniFile ParserOptions.PassDoubleDashHelpFlag fs p).sets := by
      unfold fileLoad
      rw [hp]
      rfl
    have h1 := get_applyAll (cmdLine goflags args).sets
      (applyAll (defaultConfig env) (fileLoad goflags env fs args).sets) .RpcServer
    have h2 := get_applyAll (fileLoad goflags env fs args).sets (defaultConfig env) .RpcServer
    rw [hfl] at h2 ⊢
    rw [hfl, hcmd, h2, hfile] at h1
    simpa [config.get] using h1

/-- Witness of C4, amended: `--configfile /custom/path.conf`, then `--` and a command; a
file there that sets `rpcserver=example.com:9000`, and no `rpcserver` on the command
line. -/
theorem config_file_option_is_honoured_witness :
    preParsedConfigFile goflags env0 ["--configfile", "/custom/path.conf", "--", "getinfo"]
        = "/custom/path.conf" ∧
      loadConfig goflags env0 fsCustom ["--configfile", "/custom/path.conf", "--", "getinfo"] =
        ⟨some ⟨"/custom/path.conf", "", "", "example.com:9000", "/home/user/.btcd/rpc.cert",
          false⟩, some ["getinfo"], none, []⟩ ∧
      (⟨"/custom/path.conf", "", "", "example.com:9000", "/home/user/.btcd/rpc.cert",
          false⟩ : config).RpcServer = "example.com:9000" :=
  ⟨(config_file_option_is_honoured env0 ["--configfile", "/custom/path.conf", "--", "getinfo"]
      "/custom/path.conf" (by decide) (by decide)).1,
    by decide,
    (config_file_option_is_honoured env0 ["--configfile", "/custom/path.conf", "--", "getinfo"]
      "/custom/path.conf" (by decide) (by decide)).2.2 fsCustom _ "example.com:9000"
      (by decide) (by decide) (by decide)⟩

end Btcctl
